import Mathlib

/-!
Verification of the tryst-scraper pipeline (src/profile_scraper.py,
src/profile_finder.py) against its natural-language specification.

The Python code is shallowly embedded: module-level mutable state becomes
explicit state passing, file contents become lists of lines, the browser/DOM
is a structure of the observations the code makes of it, and float delays are
modelled as rationals (the arithmetic used — multiplication by 3/2 and 9/10,
min/max clamps — is order-preserving, which is all the claims use).
-/

/-! ### String helpers

Python's `in` (substring test), `str.strip`, `str.lower` and
`str.startswith`, modelled over the character list of a `String` so that all
computations reduce in the kernel. -/

/-- `matchesAt p l` holds when the char list `l` starts with `p`. -/
def matchesAt : List Char → List Char → Bool
  | [], _ => true
  | _ :: _, [] => false
  | a :: p, b :: l => a == b && matchesAt p l

/-- `hasSubList p l` holds when `p` occurs contiguously inside `l`. -/
def hasSubList (p : List Char) : List Char → Bool
  | [] => matchesAt p []
  | b :: t => matchesAt p (b :: t) || hasSubList p t

/-- Python `pat in s`: `pat` occurs as a substring of `s`. -/
def strContainsSub (s pat : String) : Bool :=
  hasSubList pat.data s.data

/-- Python `s.strip()`: drop leading and trailing whitespace. -/
def strTrim (s : String) : String :=
  ⟨((s.data.dropWhile Char.isWhitespace).reverse.dropWhile Char.isWhitespace).reverse⟩

/-- Python `s.lower()` (the strings compared are ASCII). -/
def strLower (s : String) : String :=
  ⟨s.data.map Char.toLower⟩

/-- Python `s.startswith(pre)`. -/
def strStarts (s pre : String) : Bool :=
  matchesAt pre.data s.data

/-! ### Adaptive Rate Controller

profile_scraper.py lines 33-66: module globals `RATE_LIMIT_COUNTER`,
`BASE_DELAY = 2.0`, `MAX_DELAY = 60.0`, `CURRENT_DELAY`, mutated under
`RATE_LIMIT_LOCK`; the lock serialises calls, so the shared state is a value
threaded through the three operations. -/

/-- BASE_DELAY (2.0 seconds). -/
def BASE_DELAY : ℚ := 2

/-- MAX_DELAY (60.0 seconds). -/
def MAX_DELAY : ℚ := 60

/-- The controller's shared mutable state: rate-limit counter and current delay. -/
structure RLState where
  counter : ℕ
  delay : ℚ
  deriving DecidableEq

/-- Initial module state: counter 0, `CURRENT_DELAY = BASE_DELAY`. -/
def initRLState : RLState := ⟨0, BASE_DELAY⟩

/-- `get_adaptive_delay` (lines 40-46): current delay plus jitter of
`CURRENT_DELAY * uniform(-0.2, 0.2)`, clamped into [BASE_DELAY, MAX_DELAY].
`u` is the sampled uniform value. -/
def get_adaptive_delay (s : RLState) (u : ℚ) : ℚ :=
  max BASE_DELAY (min MAX_DELAY (s.delay + s.delay * u))

/-- `increase_rate_limit_delay` (lines 48-56): bump the counter, multiply the
delay by 1.5 capped at MAX_DELAY, return the new delay. -/
def increase_rate_limit_delay (s : RLState) : RLState × ℚ :=
  let d := min MAX_DELAY (s.delay * (3 / 2))
  (⟨s.counter + 1, d⟩, d)

/-- `reset_rate_limit_delay` (lines 58-66): if above BASE_DELAY, decay the
delay by 0.9 floored at BASE_DELAY; return the (possibly unchanged) delay. -/
def reset_rate_limit_delay (s : RLState) : RLState × ℚ :=
  if BASE_DELAY < s.delay then
    let d := max BASE_DELAY (s.delay * (9 / 10))
    (⟨s.counter, d⟩, d)
  else (s, s.delay)

/-- The delays returned by `n` consecutive `increase_rate_limit_delay` calls. -/
def increaseRuns : RLState → ℕ → List ℚ
  | _, 0 => []
  | s, n + 1 =>
    let p := increase_rate_limit_delay s
    p.2 :: increaseRuns p.1 n

/-- The delays returned by `n` consecutive `reset_rate_limit_delay` calls. -/
def resetRuns : RLState → ℕ → List ℚ
  | _, 0 => []
  | s, n + 1 =>
    let p := reset_rate_limit_delay s
    p.2 :: resetRuns p.1 n

/-- One call to any of the three controller entry points (`u` is
`get_adaptive_delay`'s jitter sample, which does not change the state). -/
inductive RLOp where
  | inc : RLOp
  | rst : RLOp
  | get : ℚ → RLOp

/-- Apply one controller call to the shared state. -/
def applyRLOp (s : RLState) : RLOp → RLState
  | .inc => (increase_rate_limit_delay s).1
  | .rst => (reset_rate_limit_delay s).1
  | .get _ => s

/-- Run a sequence of controller calls from a state. -/
def runRLOps : RLState → List RLOp → RLState
  | s, [] => s
  | s, op :: rest => runRLOps (applyRLOp s op) rest

lemma increase_delay_le_max (s : RLState) :
    (increase_rate_limit_delay s).2 ≤ MAX_DELAY :=
  min_le_left _ _

lemma increase_delay_ge_base (s : RLState) (h : BASE_DELAY ≤ s.delay) :
    BASE_DELAY ≤ (increase_rate_limit_delay s).2 := by
  unfold increase_rate_limit_delay BASE_DELAY MAX_DELAY at *
  refine le_min (by norm_num) (by linarith)

lemma increase_state_delay (s : RLState) :
    (increase_rate_limit_delay s).1.delay = (increase_rate_limit_delay s).2 := rfl

lemma increase_ret_ge_self (s : RLState) (h0 : 0 ≤ s.delay)
    (h60 : s.delay ≤ MAX_DELAY) : s.delay ≤ (increase_rate_limit_delay s).2 := by
  unfold increase_rate_limit_delay MAX_DELAY at *
  refine le_min h60 (by linarith)

lemma reset_delay_ge_base (s : RLState) (h : BASE_DELAY ≤ s.delay) :
    BASE_DELAY ≤ (reset_rate_limit_delay s).2 := by
  unfold reset_rate_limit_delay
  split
  · exact le_max_left _ _
  · exact h

lemma reset_delay_le_max (s : RLState)
    (h : s.delay ≤ MAX_DELAY) : (reset_rate_limit_delay s).2 ≤ MAX_DELAY := by
  unfold reset_rate_limit_delay BASE_DELAY MAX_DELAY at *
  split
  · refine max_le (by norm_num) (by linarith)
  · exact h

lemma reset_state_delay (s : RLState) :
    (reset_rate_limit_delay s).1.delay = (reset_rate_limit_delay s).2 := by
  unfold reset_rate_limit_delay
  split <;> rfl

lemma reset_ret_le_self (s : RLState) :
    (reset_rate_limit_delay s).2 ≤ s.delay := by
  unfold reset_rate_limit_delay BASE_DELAY at *
  split
  · refine max_le (by linarith) (by linarith)
  · exact le_refl _

lemma increaseRuns_chain (n : ℕ) :
    ∀ s : RLState, BASE_DELAY ≤ s.delay → s.delay ≤ MAX_DELAY →
      List.Chain (· ≤ ·) s.delay (increaseRuns s n) := by
  induction n with
  | zero => intro s _ _; exact List.Chain.nil
  | succ n ih =>
    intro s h2 h60
    have hbase : (0 : ℚ) ≤ s.delay := le_trans (by norm_num [BASE_DELAY]) h2
    refine List.Chain.cons (increase_ret_ge_self s hbase h60) ?_
    have := ih (increase_rate_limit_delay s).1
      (by rw [increase_state_delay]; exact increase_delay_ge_base s h2)
      (by rw [increase_state_delay]; exact increase_delay_le_max s)
    simpa [increase_state_delay] using this

lemma increaseRuns_mem_le_max (n : ℕ) :
    ∀ s : RLState, ∀ d ∈ increaseRuns s n, d ≤ MAX_DELAY := by
  induction n with
  | zero => intro s d hd; simp [increaseRuns] at hd
  | succ n ih =>
    intro s d hd
    simp only [increaseRuns, List.mem_cons] at hd
    rcases hd with h | h
    · exact h ▸ increase_delay_le_max s
    · exact ih _ d h

lemma resetRuns_chain (n : ℕ) :
    ∀ s : RLState, BASE_DELAY ≤ s.delay →
      List.Chain (· ≥ ·) s.delay (resetRuns s n) := by
  induction n with
  | zero => intro s _; exact List.Chain.nil
  | succ n ih =>
    intro s h2
    refine List.Chain.cons (reset_ret_le_self s) ?_
    have := ih (reset_rate_limit_delay s).1
      (by rw [reset_state_delay]; exact reset_delay_ge_base s h2)
    simpa [reset_state_delay] using this

lemma resetRuns_mem_ge_base (n : ℕ) :
    ∀ s : RLState, BASE_DELAY ≤ s.delay → ∀ d ∈ resetRuns s n, BASE_DELAY ≤ d := by
  induction n with
  | zero => intro s _ d hd; simp [resetRuns] at hd
  | succ n ih =>
    intro s h2 d hd
    simp only [resetRuns, List.mem_cons] at hd
    rcases hd with h | h
    · exact h ▸ reset_delay_ge_base s h2
    · refine ih _ ?_ d h
      rw [reset_state_delay]; exact reset_delay_ge_base s h2

lemma chain'_of_chain {r : ℚ → ℚ → Prop} {a : ℚ} {l : List ℚ} :
    List.Chain r a l → List.Chain' r l := by
  intro h
  cases h with
  | nil => trivial
  | cons hab ht => exact ht

/-- C3: every sequence of `increase_rate_limit_delay` (reportRateLimited)
calls returns a non-decreasing sequence of delays, all ≤ MAX_DELAY; every
sequence of `reset_rate_limit_delay` (reportSuccess) calls with no intervening
escalation returns a non-increasing sequence of delays, all ≥ BASE_DELAY.
The hypotheses are the reachable-state invariant `BASE_DELAY ≤ delay ≤
MAX_DELAY` (proved from the initial state in `rate_delay_clamped`). -/
theorem backoff_monotone_escalation_and_decay (s : RLState) (n : ℕ)
    (h2 : BASE_DELAY ≤ s.delay) (h60 : s.delay ≤ MAX_DELAY) :
    (List.Chain' (· ≤ ·) (increaseRuns s n) ∧
      ∀ d ∈ increaseRuns s n, d ≤ MAX_DELAY) ∧
    (List.Chain' (· ≥ ·) (resetRuns s n) ∧
      ∀ d ∈ resetRuns s n, BASE_DELAY ≤ d) := by
  refine ⟨⟨chain'_of_chain (increaseRuns_chain n s h2 h60), increaseRuns_mem_le_max n s⟩,
    ⟨chain'_of_chain (resetRuns_chain n s h2), resetRuns_mem_ge_base n s h2⟩⟩

/-- C3 witness: three escalations from the initial state (delay 2) return
3, 4.5, 6.75 — non-decreasing and within the cap — and three decays from
delay 60 return 54, 48.6, 43.74 — non-increasing and above the base. -/
theorem backoff_monotone_escalation_and_decay_witness :
    (BASE_DELAY ≤ (initRLState).delay ∧ (initRLState).delay ≤ MAX_DELAY) ∧
    ((List.Chain' (· ≤ ·) (increaseRuns initRLState 3) ∧
        ∀ d ∈ increaseRuns initRLState 3, d ≤ MAX_DELAY) ∧
      (List.Chain' (· ≥ ·) (resetRuns initRLState 3) ∧
        ∀ d ∈ resetRuns initRLState 3, BASE_DELAY ≤ d)) :=
  ⟨⟨by norm_num [initRLState, BASE_DELAY], by norm_num [initRLState, BASE_DELAY, MAX_DELAY]⟩,
    backoff_monotone_escalation_and_decay initRLState 3
      (by norm_num [initRLState, BASE_DELAY])
      (by norm_num [initRLState, BASE_DELAY, MAX_DELAY])⟩

lemma applyRLOp_invariant (s : RLState) (op : RLOp)
    (h2 : BASE_DELAY ≤ s.delay) (h60 : s.delay ≤ MAX_DELAY) :
    BASE_DELAY ≤ (applyRLOp s op).delay ∧ (applyRLOp s op).delay ≤ MAX_DELAY := by
  cases op with
  | inc =>
    refine ⟨?_, ?_⟩
    · simpa [applyRLOp, increase_state_delay] using increase_delay_ge_base s h2
    · simpa [applyRLOp, increase_state_delay] using increase_delay_le_max s
  | rst =>
    refine ⟨?_, ?_⟩
    · simpa [applyRLOp, reset_state_delay] using reset_delay_ge_base s h2
    · simpa [applyRLOp, reset_state_delay] using reset_delay_le_max s h60
  | get u => exact ⟨h2, h60⟩

lemma runRLOps_invariant (ops : List RLOp) :
    ∀ s : RLState, BASE_DELAY ≤ s.delay → s.delay ≤ MAX_DELAY →
      BASE_DELAY ≤ (runRLOps s ops).delay ∧ (runRLOps s ops).delay ≤ MAX_DELAY := by
  induction ops with
  | nil => intro s h2 h60; exact ⟨h2, h60⟩
  | cons op rest ih =>
    intro s h2 h60
    have := applyRLOp_invariant s op h2 h60
    exact ih (applyRLOp s op) this.1 this.2

/-- C4: in every state reachable from the initial controller state by any
interleaving of the three calls, the stored delay lies in
[BASE_DELAY, MAX_DELAY]; and `get_adaptive_delay`'s jittered return value is
clamped into [BASE_DELAY, MAX_DELAY] for every jitter sample `u`. -/
theorem rate_delay_clamped (ops : List RLOp) (u : ℚ) :
    BASE_DELAY ≤ (runRLOps initRLState ops).delay ∧
    (runRLOps initRLState ops).delay ≤ MAX_DELAY ∧
    BASE_DELAY ≤ get_adaptive_delay (runRLOps initRLState ops) u ∧
    get_adaptive_delay (runRLOps initRLState ops) u ≤ MAX_DELAY := by
  have hinv := runRLOps_invariant ops initRLState
    (le_refl _) (by norm_num [initRLState, BASE_DELAY, MAX_DELAY])
  refine ⟨hinv.1, hinv.2, le_max_left _ _, ?_⟩
  refine max_le (by norm_num [BASE_DELAY, MAX_DELAY]) (min_le_left _ _)

/-! ### ProcessingRecord as a Python dict

`scrape_profile` and `scrape_profile_with_bright_data` build a `data` dict;
modelled as an association list of key to optional string value (a value of
`none` is Python's `None`). Assignment replaces an existing key in place or
appends a new one, exactly as a Python dict preserves insertion order. -/

/-- The record dict: key to optional string value. -/
abbrev DataMap : Type := List (String × Option String)

/-- Python `d[k] = v`. -/
def setKey : DataMap → String → Option String → DataMap
  | [], k, v => [(k, v)]
  | (k', v') :: rest, k, v =>
    if k' = k then (k, v) :: rest else (k', v') :: setKey rest k v

/-- Python `d.get(k)`: `none` when the key is absent. -/
def getKey : DataMap → String → Option (Option String)
  | [], _ => none
  | (k', v') :: rest, k => if k' = k then some v' else getKey rest k

/-- The thirteen contact-field keys, in the dict-literal order of
profile_scraper.py lines 241-253 and 1301-1313. -/
def contactKeys : List String :=
  ["name", "email", "phone", "mobile", "whatsapp", "linktree", "website",
    "onlyfans", "fansly", "twitter", "instagram", "snapchat", "telegram"]

/-- The initial `data` dict of both scrapers: the url plus every contact
field, each `None`. -/
def initData (url : String) : DataMap :=
  ("url", some url) :: contactKeys.map (fun k => (k, none))

/-! ### Error-page phrases and CSV persistence

profile_scraper.py: `save_to_csv` (lines 1176-1212), the error-phrase filter
(lines 1183-1192) and the error-flag skip (lines 1178-1181). A CSV file is a
list of rows, each a list of cells. -/

/-- "This page isn't working" (apostrophe written as an escape). -/
def errPhrasePage : String := "This page isn't working"

/-- Python truthiness of `data.get("_error")`: the key is present with a
non-empty string. -/
def errFlag (d : DataMap) : Bool :=
  match getKey d "_error" with
  | some (some e) => e ≠ ""
  | _ => false

/-- `data.get("_error")` is truthy and contains "HTTP ERROR 440"
(the selenium worker's rate-limit test, lines 1862-1863). -/
def err440 (d : DataMap) : Bool :=
  match getKey d "_error" with
  | some (some e) => e ≠ "" && strContainsSub e "HTTP ERROR 440"
  | _ => false

/-- The error-message test of `save_to_csv`'s clearing loop (lines 1185-1190)
and of the field-mapping skip (lines 1109-1114): the value contains one of
three error-page phrases or is the bare word "Error" once stripped. -/
def isErrorValue (v : String) : Bool :=
  strContainsSub v errPhrasePage ||
  strContainsSub v "An error occurred" ||
  strContainsSub v "Please try again" ||
  strTrim v = "Error"

/-- The clearing loop of `save_to_csv` (lines 1183-1192): any string value
matching an error phrase is set to `None`. -/
def cleanData (d : DataMap) : DataMap :=
  d.map (fun kv =>
    match kv.2 with
    | some s => if isErrorValue s then (kv.1, none) else kv
    | none => kv)

/-- One CSV cell: `data.get(k, "")`, with Python's csv writer rendering
`None` as the empty string. -/
def cellOf (d : DataMap) (k : String) : String :=
  match getKey d k with
  | some (some s) => s
  | _ => ""

/-- The fixed column order of the output row (lines 1196-1211). -/
def csvColumns : List String :=
  ["url", "name", "email", "phone", "mobile", "whatsapp", "linktree",
    "website", "onlyfans", "fansly", "twitter", "instagram", "snapchat",
    "telegram"]

/-- `save_to_csv` (lines 1176-1212): skip entirely when the record carries a
truthy `_error`; otherwise clear error-phrase values and append one row. -/
def save_to_csv (csv : List (List String)) (d : DataMap) : List (List String) :=
  if errFlag d then csv
  else csv ++ [csvColumns.map (cellOf (cleanData d))]

/-! ### Work Ledger and workers

profile_scraper.py: `load_scraped_urls` (1214-1216), `save_scraped_url`
(1218-1221), `scrape_single_profile` (1223-1248), `scrape_profile_worker`
(1419-1448) and `selenium_scrape_profile_worker` (1838-1886). Files are lists
of lines; the scrape itself (network + DOM) is external, so each worker takes
the record the scrape produced as a parameter. -/

/-- `load_scraped_urls`: the set of stripped lines of scraped_urls.txt
(membership in this list is the in-memory done-set lookup). -/
def load_scraped_urls (lines : List String) : List String :=
  lines.map strTrim

/-- `save_scraped_url`: append one line holding the url. -/
def save_scraped_url (lines : List String) (url : String) : List String :=
  lines ++ [url]

/-- The durable state a worker touches: ledger file lines and CSV rows. -/
structure WorkerState where
  ledgerLines : List String
  csv : List (List String)
  deriving DecidableEq

/-- `scrape_profile_worker` (lines 1419-1448, the Bright Data worker): skip
if the url is already in the done-set; drop the result entirely (no CSV row,
no ledger append) when it carries an `_error`; otherwise persist row and
ledger entry under the csv lock. `rec` is `scrape_profile_with_bright_data`'s
result for the url. -/
def scrape_profile_worker (st : WorkerState) (url : String) (rec : DataMap) :
    WorkerState × Option DataMap :=
  if url ∈ load_scraped_urls st.ledgerLines then (st, none)
  else if errFlag rec then (st, none)
  else (⟨save_scraped_url st.ledgerLines url, save_to_csv st.csv rec⟩, some rec)

/-- `selenium_scrape_profile_worker` (lines 1838-1886): skip if done; on a
rate-limited result (`_error` containing "HTTP ERROR 440") escalate the
shared delay and do not persist; otherwise persist row and ledger entry.
`rec` is `scrape_profile`'s result for the url. -/
def selenium_scrape_profile_worker (st : WorkerState) (rl : RLState)
    (url : String) (rec : DataMap) : WorkerState × RLState × Option DataMap :=
  if url ∈ load_scraped_urls st.ledgerLines then (st, rl, none)
  else if err440 rec then (st, (increase_rate_limit_delay rl).1, none)
  else (⟨save_scraped_url st.ledgerLines url, save_to_csv st.csv rec⟩, rl, some rec)

/-- `scrape_single_profile` (lines 1223-1248): skip if done, otherwise call
`save_to_csv` and then `save_scraped_url` unconditionally — even when the
record carries an error classification. -/
def scrape_single_profile (st : WorkerState) (url : String) (rec : DataMap) :
    WorkerState :=
  if url ∈ load_scraped_urls st.ledgerLines then st
  else ⟨save_scraped_url st.ledgerLines url, save_to_csv st.csv rec⟩

lemma err440_errFlag (rec : DataMap) (h : err440 rec = true) :
    errFlag rec = true := by
  cases hg : getKey rec "_error" with
  | none => simp [err440, hg] at h
  | some v =>
    cases v with
    | none => simp [err440, hg] at h
    | some e =>
      simp only [err440, hg, Bool.and_eq_true, decide_eq_true_eq] at h
      simp [errFlag, hg, h.1]

/-- C1: a worker whose scrape attempt ends in a transient/rate-limit failure
(the record carries an error classification; for the selenium worker the
"HTTP ERROR 440" marker) neither appends the url to the scraped_urls ledger
nor persists a CSV row, and returns no record — the done-set, being the
loaded ledger file, is unchanged, so the url is still pending on the next
run. -/
theorem transient_failure_not_marked_done (st : WorkerState) (rl : RLState)
    (url : String) (rec : DataMap) (h : err440 rec = true) :
    scrape_profile_worker st url rec = (st, none) ∧
    (selenium_scrape_profile_worker st rl url rec).1 = st ∧
    (selenium_scrape_profile_worker st rl url rec).2.2 = none := by
  have herr := err440_errFlag rec h
  unfold scrape_profile_worker selenium_scrape_profile_worker
  refine ⟨?_, ?_, ?_⟩ <;> split <;> simp [herr, h]

/-- C1 witness: a record flagged "HTTP ERROR 440 - Rate limited" on url "u"
with an empty ledger: both workers leave the state untouched. -/
theorem transient_failure_not_marked_done_witness :
    err440 (setKey (initData "u") "_error" (some "HTTP ERROR 440 - Rate limited")) = true ∧
    (scrape_profile_worker ⟨[], []⟩ "u"
        (setKey (initData "u") "_error" (some "HTTP ERROR 440 - Rate limited")) =
        (⟨[], []⟩, none) ∧
      (selenium_scrape_profile_worker ⟨[], []⟩ initRLState "u"
          (setKey (initData "u") "_error" (some "HTTP ERROR 440 - Rate limited"))).1 =
        ⟨[], []⟩ ∧
      (selenium_scrape_profile_worker ⟨[], []⟩ initRLState "u"
          (setKey (initData "u") "_error" (some "HTTP ERROR 440 - Rate limited"))).2.2 =
        none) :=
  ⟨by decide,
    transient_failure_not_marked_done ⟨[], []⟩ initRLState "u"
      (setKey (initData "u") "_error" (some "HTTP ERROR 440 - Rate limited"))
      (by decide)⟩

/-! ### C5: ledger entry versus CSV row

`scrape_single_profile` marks the ledger even for an error-classified record,
while `save_to_csv` skips the row for exactly those records; the worker paths
gate the ledger append on the absence of an error. -/

/-- C5 counterexample: `scrape_single_profile` on url "u" with a record
flagged "HTTP ERROR 440 - Rate limited" appends "u" to the scraped_urls
ledger but `save_to_csv` writes no row, so the ledger-marked URL has no CSV
row. -/
theorem ledger_marked_without_csv_row :
    (scrape_single_profile ⟨[], []⟩ "u"
        (setKey (initData "u") "_error" (some "HTTP ERROR 440 - Rate limited"))).ledgerLines
      = ["u"] ∧
    (scrape_single_profile ⟨[], []⟩ "u"
        (setKey (initData "u") "_error" (some "HTTP ERROR 440 - Rate limited"))).csv
      = [] := by
  decide

/-- C5 amended: in the worker paths every ledger append is accompanied by the
record's CSV row — each worker either leaves both the ledger and the CSV
untouched, or appends the url to the ledger and the record's sanitized row to
the CSV. For the selenium worker this uses the fact that the only error
classification `scrape_profile` produces is the "HTTP ERROR 440" one (line
267), stated as the hypothesis `hsel`. `scrape_single_profile` (see the
counterexample) does not satisfy this: it marks the ledger even when
`save_to_csv` skipped the row. -/
theorem ledger_append_implies_csv_row (st : WorkerState) (rl : RLState)
    (url : String) (rec : DataMap)
    (hsel : errFlag rec = true → err440 rec = true) :
    ((scrape_profile_worker st url rec).1.ledgerLines = st.ledgerLines ∧
        (scrape_profile_worker st url rec).1.csv = st.csv ∨
      (scrape_profile_worker st url rec).1.ledgerLines = st.ledgerLines ++ [url] ∧
        (scrape_profile_worker st url rec).1.csv =
          st.csv ++ [csvColumns.map (cellOf (cleanData rec))]) ∧
    ((selenium_scrape_profile_worker st rl url rec).1.ledgerLines = st.ledgerLines ∧
        (selenium_scrape_profile_worker st rl url rec).1.csv = st.csv ∨
      (selenium_scrape_profile_worker st rl url rec).1.ledgerLines = st.ledgerLines ++ [url] ∧
        (selenium_scrape_profile_worker st rl url rec).1.csv =
          st.csv ++ [csvColumns.map (cellOf (cleanData rec))]) := by
  constructor
  · unfold scrape_profile_worker
    split
    · exact Or.inl ⟨rfl, rfl⟩
    · by_cases herr : errFlag rec = true
      · simp [herr]
      · simp only [herr]
        simp [save_scraped_url, save_to_csv, herr]
  · unfold selenium_scrape_profile_worker
    split
    · exact Or.inl ⟨rfl, rfl⟩
    · by_cases h4 : err440 rec = true
      · simp [h4]
      · have herr : errFlag rec = false := by
          by_contra hc
          exact h4 (hsel (by revert hc; cases errFlag rec <;> simp))
        simp only [h4]
        simp [save_scraped_url, save_to_csv, herr]

/-- C5 amended witness: an error-free record on a fresh state — both workers
append the ledger entry together with the record's CSV row. -/
theorem ledger_append_implies_csv_row_witness :
    (errFlag (initData "u") = true → err440 (initData "u") = true) ∧
    (((scrape_profile_worker ⟨[], []⟩ "u" (initData "u")).1.ledgerLines = [] ∧
        (scrape_profile_worker ⟨[], []⟩ "u" (initData "u")).1.csv = [] ∨
      (scrape_profile_worker ⟨[], []⟩ "u" (initData "u")).1.ledgerLines = [] ++ ["u"] ∧
        (scrape_profile_worker ⟨[], []⟩ "u" (initData "u")).1.csv =
          [] ++ [csvColumns.map (cellOf (cleanData (initData "u")))]) ∧
    ((selenium_scrape_profile_worker ⟨[], []⟩ initRLState "u" (initData "u")).1.ledgerLines = [] ∧
        (selenium_scrape_profile_worker ⟨[], []⟩ initRLState "u" (initData "u")).1.csv = [] ∨
      (selenium_scrape_profile_worker ⟨[], []⟩ initRLState "u" (initData "u")).1.ledgerLines
          = [] ++ ["u"] ∧
        (selenium_scrape_profile_worker ⟨[], []⟩ initRLState "u" (initData "u")).1.csv =
          [] ++ [csvColumns.map (cellOf (cleanData (initData "u")))])) :=
  ⟨by decide,
    ledger_append_implies_csv_row ⟨[], []⟩ initRLState "u" (initData "u") (by decide)⟩

/-! ### Extractor: labeled contact rows

The JavaScript row extraction of `scrape_profile` (profile_scraper.py lines
951-998) and the BeautifulSoup row extraction of
`scrape_profile_with_bright_data` (lines 1342-1392). A `ContactRow` carries
what the code observes of one `div.row.justify-content-between`. -/

/-- One labeled contact row of the page's contact panel. -/
structure ContactRow where
  /-- the label element's text content -/
  label : String
  /-- a reveal ("Show") control is present in the value element -/
  hasShowButton : Bool
  /-- text of the unobfuscated-output span, when that span is present -/
  spanText : Option String
  /-- href of the first link in the value element, when a link is present -/
  linkHref : Option String
  /-- the whole value element's text content -/
  plainText : String

/-- JS label normalization (lines 959-960): trim, lowercase, and collapse
"X (formerly Twitter)" to "twitter". -/
def jsNormLabel (raw : String) : String :=
  let l := strLower (strTrim raw)
  if strContainsSub l "(formerly twitter)" then "twitter" else l

/-- BeautifulSoup label normalization (lines 1352-1354). -/
def bs4NormLabel (raw : String) : String :=
  let l := strLower (strTrim raw)
  if strContainsSub l "formerly twitter" then "twitter" else l

/-- JS: the label names an identity field whose link href must not be taken
(line 983-984). -/
def sensitiveJs (label : String) : Bool :=
  strContainsSub label "email" || strContainsSub label "mobile" ||
  strContainsSub label "phone" || strContainsSub label "whatsapp"

/-- BeautifulSoup: `label.startswith(('email', 'phone', 'mobile',
'whatsapp'))` (line 1367). -/
def sensitiveBs4 (label : String) : Bool :=
  strStarts label "email" || strStarts label "phone" ||
  strStarts label "mobile" || strStarts label "whatsapp"

/-- JS plain-text fallback (lines 987-992): the value element's trimmed text,
kept only when it no longer contains the obfuscation glyph and is longer than
two characters. -/
def jsTextFallback (r : ContactRow) : Option String :=
  if !strContainsSub (strTrim r.plainText) "●" &&
      decide (2 < (strTrim r.plainText).length) then
    some (strTrim r.plainText)
  else none

/-- JS link fallback (lines 981-992): a link's href for non-sensitive labels,
otherwise the plain-text fallback. -/
def jsLinkFallback (r : ContactRow) (label : String) : Option String :=
  match r.linkHref with
  | some href => if !sensitiveJs label then some href else jsTextFallback r
  | none => jsTextFallback r

/-- The `value` computed for one row by the JS extraction (lines 962-994):
fields with a Show button accept only the glyph-free revealed span; other
fields prefer the glyph-free span, then the link fallback. -/
def jsRowValue (r : ContactRow) : Option String :=
  if r.hasShowButton then
    match r.spanText with
    | some t => if strContainsSub t "●" then none else some (strTrim t)
    | none => none
  else
    match r.spanText with
    | some t =>
      if strContainsSub t "●" then jsLinkFallback r (jsNormLabel r.label)
      else some (strTrim t)
    | none => jsLinkFallback r (jsNormLabel r.label)

/-- The BeautifulSoup span value (lines 1359-1362): the stripped text of the
unobfuscated-output span when it is present and free of the glyph. -/
def bs4SpanValue (r : ContactRow) : Option String :=
  match r.spanText with
  | some t => if strContainsSub t "●" then none else some (strTrim t)
  | none => none

/-- Completing the BeautifulSoup row value (lines 1364-1368): when the span
value is still falsy (`None` or the empty string), take a link's href for
non-sensitive labels. -/
def bs4RowValue (r : ContactRow) : Option String :=
  if bs4SpanValue r = none ∨ bs4SpanValue r = some "" then
    match r.linkHref with
    | some href =>
      if sensitiveBs4 (bs4NormLabel r.label) then bs4SpanValue r else some href
    | none => bs4SpanValue r
  else bs4SpanValue r

/-- The ordered `field_mapping` of JS-extracted labels to canonical record
fields (lines 1085-1099 and 1372-1386). -/
def field_mapping : List (String × String) :=
  [("email", "email"), ("mobile", "mobile"), ("phone", "phone"),
    ("whatsapp", "whatsapp"), ("twitter", "twitter"), ("x", "twitter"),
    ("instagram", "instagram"), ("linktree", "linktree"),
    ("onlyfans", "onlyfans"), ("fansly", "fansly"), ("snapchat", "snapchat"),
    ("telegram", "telegram"), ("website", "website")]

/-- Applying one extracted (label, value) pair to the record (lines
1103-1122): skip internal keys starting with "_", skip error-page phrases,
else assign to the first mapping entry whose key occurs in the label. -/
def mapContactItem (data : DataMap) (jsField value : String) : DataMap :=
  if strStarts jsField "_" then data
  else if isErrorValue value then data
  else
    match field_mapping.find? (fun kv => strContainsSub jsField kv.1) with
    | some kv => setKey data kv.2 (some value)
    | none => data

/-! ### Substring facts

A pattern occurring in a trimmed string occurs in the original: `strTrim`
only removes characters at the ends. -/

lemma matchesAt_append (p : List Char) :
    ∀ l ys : List Char, matchesAt p l = true → matchesAt p (l ++ ys) = true := by
  induction p with
  | nil => intro l ys _; rfl
  | cons a p ih =>
    intro l ys h
    cases l with
    | nil => simp [matchesAt] at h
    | cons b t =>
      simp only [matchesAt, Bool.and_eq_true] at h
      simp only [List.cons_append, matchesAt, Bool.and_eq_true]
      exact ⟨h.1, ih t ys h.2⟩

lemma hasSubList_cons (p : List Char) (b : Char) (t : List Char)
    (h : hasSubList p t = true) : hasSubList p (b :: t) = true := by
  simp [hasSubList, h]

lemma hasSubList_nil_pat (l : List Char) : hasSubList [] l = true := by
  cases l <;> simp [hasSubList, matchesAt]

lemma hasSubList_append_left (p : List Char) :
    ∀ xs l : List Char, hasSubList p l = true → hasSubList p (xs ++ l) = true := by
  intro xs
  induction xs with
  | nil => intro l h; exact h
  | cons b t ih => intro l h; exact hasSubList_cons p b (t ++ l) (ih l h)

lemma hasSubList_append_right (p : List Char) :
    ∀ l ys : List Char, hasSubList p l = true → hasSubList p (l ++ ys) = true := by
  intro l
  induction l with
  | nil =>
    intro ys h
    cases p with
    | nil => exact hasSubList_nil_pat ys
    | cons a q => simp [hasSubList, matchesAt] at h
  | cons b t ih =>
    intro ys h
    simp only [hasSubList, Bool.or_eq_true] at h
    rcases h with h | h
    · simp only [List.cons_append, hasSubList, Bool.or_eq_true]
      exact Or.inl (matchesAt_append p (b :: t) ys h)
    · exact hasSubList_cons p b (t ++ ys) (ih ys h)

lemma hasSubList_infix (p xs l ys : List Char) (h : hasSubList p l = true) :
    hasSubList p (xs ++ l ++ ys) = true := by
  rw [List.append_assoc]
  exact hasSubList_append_left p xs (l ++ ys) (hasSubList_append_right p l ys h)

lemma strTrim_decomp (s : String) :
    ∃ xs ys, s.data = xs ++ (strTrim s).data ++ ys := by
  refine ⟨s.data.takeWhile Char.isWhitespace,
    ((s.data.dropWhile Char.isWhitespace).reverse.takeWhile Char.isWhitespace).reverse, ?_⟩
  conv_lhs => rw [← List.takeWhile_append_dropWhile Char.isWhitespace s.data]
  rw [List.append_assoc]
  congr 1
  conv_lhs => rw [← List.reverse_reverse (s.data.dropWhile Char.isWhitespace)]
  conv_lhs =>
    rw [← List.takeWhile_append_dropWhile Char.isWhitespace
      (s.data.dropWhile Char.isWhitespace).reverse]
  rw [List.reverse_append]
  rfl

lemma strTrim_contains (s pat : String)
    (h : strContainsSub (strTrim s) pat = true) : strContainsSub s pat = true := by
  obtain ⟨xs, ys, hdecomp⟩ := strTrim_decomp s
  unfold strContainsSub at *
  rw [hdecomp]
  exact hasSubList_infix pat.data xs (strTrim s).data ys h

lemma jsTextFallback_cases (r : ContactRow) (v : String)
    (h : jsTextFallback r = some v) :
    v = strTrim r.plainText ∧ strContainsSub v "●" = false := by
  unfold jsTextFallback at h
  split_ifs at h with hc
  simp only [Option.some.injEq] at h
  subst h
  simp only [Bool.and_eq_true, Bool.not_eq_true'] at hc
  exact ⟨rfl, hc.1⟩

lemma jsLinkFallback_cases (r : ContactRow) (label : String) (v : String)
    (h : jsLinkFallback r label = some v) :
    r.linkHref = some v ∨
    (v = strTrim r.plainText ∧ strContainsSub v "●" = false) := by
  unfold jsLinkFallback at h
  cases hl : r.linkHref with
  | none =>
    rw [hl] at h
    simp only [] at h
    exact Or.inr (jsTextFallback_cases r v h)
  | some href =>
    rw [hl] at h
    simp only [] at h
    split_ifs at h with hs
    · simp only [Option.some.injEq] at h; subst h; exact Or.inl rfl
    · exact Or.inr (jsTextFallback_cases r v h)

lemma jsRowValue_cases (r : ContactRow) (v : String) (h : jsRowValue r = some v) :
    (∃ t, r.spanText = some t ∧ strContainsSub t "●" = false ∧ v = strTrim t) ∨
    r.linkHref = some v ∨
    (v = strTrim r.plainText ∧ strContainsSub v "●" = false) := by
  unfold jsRowValue at h
  by_cases hsb : r.hasShowButton = true
  · rw [if_pos hsb] at h
    cases hsp : r.spanText with
    | none => rw [hsp] at h; simp only [] at h; exact absurd h (by simp)
    | some t =>
      rw [hsp] at h
      simp only [] at h
      split_ifs at h with hgl
      simp only [Option.some.injEq] at h
      exact Or.inl ⟨t, rfl, by simpa using hgl, h.symm⟩
  · rw [if_neg hsb] at h
    cases hsp : r.spanText with
    | none =>
      rw [hsp] at h
      simp only [] at h
      rcases jsLinkFallback_cases r (jsNormLabel r.label) v h with hl | ht
      · exact Or.inr (Or.inl hl)
      · exact Or.inr (Or.inr ht)
    | some t =>
      rw [hsp] at h
      simp only [] at h
      split_ifs at h with hgl
      · rcases jsLinkFallback_cases r (jsNormLabel r.label) v h with hl | ht
        · exact Or.inr (Or.inl hl)
        · exact Or.inr (Or.inr ht)
      · simp only [Option.some.injEq] at h
        exact Or.inl ⟨t, rfl, by simpa using hgl, h.symm⟩

lemma bs4SpanValue_cases (r : ContactRow) (v : String)
    (h : bs4SpanValue r = some v) :
    ∃ t, r.spanText = some t ∧ strContainsSub t "●" = false ∧ v = strTrim t := by
  unfold bs4SpanValue at h
  cases hsp : r.spanText with
  | none => rw [hsp] at h; simp only [] at h; exact absurd h (by simp)
  | some t =>
    rw [hsp] at h
    simp only [] at h
    split_ifs at h with hgl
    simp only [Option.some.injEq] at h
    exact ⟨t, rfl, by simpa using hgl, h.symm⟩

lemma bs4RowValue_cases (r : ContactRow) (v : String) (h : bs4RowValue r = some v) :
    (∃ t, r.spanText = some t ∧ strContainsSub t "●" = false ∧ v = strTrim t) ∨
    r.linkHref = some v := by
  unfold bs4RowValue at h
  by_cases hfalsy : (bs4SpanValue r = none ∨ bs4SpanValue r = some "")
  · rw [if_pos hfalsy] at h
    cases hl : r.linkHref with
    | none =>
      rw [hl] at h
      simp only [] at h
      exact Or.inl (bs4SpanValue_cases r v h)
    | some href =>
      rw [hl] at h
      simp only [] at h
      split_ifs at h with hs
      · exact Or.inl (bs4SpanValue_cases r v h)
      · simp only [Option.some.injEq] at h
        subst h
        exact Or.inr rfl
  · rw [if_neg hfalsy] at h
    exact Or.inl (bs4SpanValue_cases r v h)

/-- C7 counterexample: a contact row labeled "OnlyFans" with no revealed
span and a link whose href still contains the obfuscation glyph "●": the JS
extraction takes the href as the value and the field mapping writes it into
the record's onlyfans field — so a glyph-containing candidate value IS
written through the link-fallback path, contradicting the claim's "all
(fallback paths) exclude values still containing the glyph". -/
theorem obfuscated_href_written_by_link_fallback :
    jsRowValue ⟨"OnlyFans", false, none, some "https://onlyfans.com/●hidden", ""⟩ =
      some "https://onlyfans.com/●hidden" ∧
    strContainsSub "https://onlyfans.com/●hidden" "●" = true ∧
    getKey (mapContactItem (initData "u") "onlyfans" "https://onlyfans.com/●hidden")
        "onlyfans" = some (some "https://onlyfans.com/●hidden") := by
  decide

/-- C7 amended: the revealed-span path and the plain-text fallback never
produce a value still containing the obfuscation glyph, on both the
Selenium/JS and the Bright Data/BeautifulSoup extraction paths; a
glyph-containing value can only come from the link-fallback path (the row's
link href, taken without a glyph check). -/
theorem glyph_value_only_from_link_href (r : ContactRow) (v : String)
    (hg : strContainsSub v "●" = true) :
    (jsRowValue r = some v → r.linkHref = some v) ∧
    (bs4RowValue r = some v → r.linkHref = some v) := by
  constructor
  · intro hjs
    rcases jsRowValue_cases r v hjs with ⟨t, _, hglyph, hv⟩ | hl | ⟨_, hglyph⟩
    · subst hv
      exact absurd (strTrim_contains t "●" hg) (by simp [hglyph])
    · exact hl
    · exact absurd hg (by simp [hglyph])
  · intro hbs
    rcases bs4RowValue_cases r v hbs with ⟨t, _, hglyph, hv⟩ | hl
    · subst hv
      exact absurd (strTrim_contains t "●" hg) (by simp [hglyph])
    · exact hl

/-- C7 amended witness: at the counterexample row, the glyph-containing
value indeed equals the row's link href on the JS path. -/
theorem glyph_value_only_from_link_href_witness :
    strContainsSub "https://onlyfans.com/●hidden" "●" = true ∧
    ((jsRowValue ⟨"OnlyFans", false, none, some "https://onlyfans.com/●hidden", ""⟩ =
        some "https://onlyfans.com/●hidden" →
      ContactRow.linkHref
          ⟨"OnlyFans", false, none, some "https://onlyfans.com/●hidden", ""⟩ =
        some "https://onlyfans.com/●hidden") ∧
    (bs4RowValue ⟨"OnlyFans", false, none, some "https://onlyfans.com/●hidden", ""⟩ =
        some "https://onlyfans.com/●hidden" →
      ContactRow.linkHref
          ⟨"OnlyFans", false, none, some "https://onlyfans.com/●hidden", ""⟩ =
        some "https://onlyfans.com/●hidden")) :=
  ⟨by decide,
    glyph_value_only_from_link_href
      ⟨"OnlyFans", false, none, some "https://onlyfans.com/●hidden", ""⟩
      "https://onlyfans.com/●hidden" (by decide)⟩

lemma getKey_cleanData :
    ∀ (d : DataMap) (k s : String),
      getKey (cleanData d) k = some (some s) → isErrorValue s = false := by
  intro d
  induction d with
  | nil => intro k s h; simp [cleanData, getKey] at h
  | cons kv rest ih =>
    intro k s h
    obtain ⟨k', v'⟩ := kv
    cases v' with
    | none =>
      simp only [cleanData, List.map_cons, getKey] at h
      split_ifs at h with hk
      · simp at h
      · exact ih k s h
    | some s' =>
      simp only [cleanData, List.map_cons] at h
      by_cases herr : isErrorValue s' = true
      · rw [if_pos herr] at h
        simp only [getKey] at h
        split_ifs at h with hk
        · simp at h
        · exact ih k s (by simpa [cleanData] using h)
      · rw [if_neg herr] at h
        simp only [getKey] at h
        split_ifs at h with hk
        · simp only [Option.some.injEq] at h
          subst h
          exact Bool.not_eq_true _ |>.mp herr
        · exact ih k s (by simpa [cleanData] using h)

/-- C8: error-page phrases are never persisted. Every row `save_to_csv`
appends has only cells free of the error phrases (values containing
"This page isn't working", "An error occurred" or "Please try again", or
stripping to the bare word "Error", are cleared to empty before the row is
written); and the field-mapping step of extraction skips any such value
outright. -/
theorem error_page_phrases_discarded (csv : List (List String)) (d : DataMap) :
    (∀ row ∈ save_to_csv csv d, row ∈ csv ∨ ∀ c ∈ row, isErrorValue c = false) ∧
    (∀ dm : DataMap, ∀ jsField v : String, isErrorValue v = true →
      mapContactItem dm jsField v = dm) := by
  constructor
  · intro row hrow
    unfold save_to_csv at hrow
    split at hrow
    · exact Or.inl hrow
    · rw [List.mem_append] at hrow
      rcases hrow with h | h
      · exact Or.inl h
      · right
        intro c hc
        simp only [List.mem_singleton] at h
        subst h
        rw [List.mem_map] at hc
        obtain ⟨k, _, hck⟩ := hc
        subst hck
        unfold cellOf
        cases hg : getKey (cleanData d) k with
        | none => simp only [hg]; decide
        | some v =>
          cases v with
          | none => simp only [hg]; decide
          | some s => simp only [hg]; exact getKey_cleanData d k s hg
  · intro dm jsField v herr
    by_cases h1 : strStarts jsField "_" = true
    · simp [mapContactItem, h1]
    · simp [mapContactItem, h1, herr]

/-! ### Challenge Detector/Resolver

profile_finder.py: `handle_captcha` (386-420), `check_and_handle_challenges`
(449-482), `handle_age_verification` (422-447); profile_scraper.py
`scrape_profile` lines 225-233 run the per-page challenge-handling sequence.
A `PageState` carries the page source and whether a visible "Agree and close"
button was found; the CAPTCHA solver round trip is the external `solveOk`
outcome. -/

/-- What the challenge-handling code observes of a loaded page. -/
structure PageState where
  /-- `driver.page_source` -/
  source : String
  /-- a displayed "Agree and close" button exists -/
  agreeVisible : Bool

/-- The CAPTCHA-page test (lines 395 and 458): the source contains
"You're Almost There" or, lowercased, "security check". -/
def captchaPage (p : PageState) : Bool :=
  strContainsSub p.source "You're Almost There" ||
  strContainsSub (strLower p.source) "security check"

/-- An attempted challenge-resolution action. -/
inductive ChallengeAction where
  /-- submit the CAPTCHA to the solver -/
  | solveCaptcha : ChallengeAction
  /-- click the "Agree and close" consent control -/
  | clickAgree : ChallengeAction
  deriving DecidableEq

/-- `handle_captcha` (lines 386-420): on a CAPTCHA page, solve it and return
the solver's outcome without touching the consent banner; otherwise click a
visible "Agree and close" button; otherwise no action. Returns the attempted
actions in order, and the reported result. -/
def handle_captcha (p : PageState) (solveOk : Bool) :
    List ChallengeAction × Bool :=
  if captchaPage p then ([ChallengeAction.solveCaptcha], solveOk)
  else if p.agreeVisible then ([ChallengeAction.clickAgree], true)
  else ([], true)

/-- `check_and_handle_challenges` (lines 449-482): same decision structure as
`handle_captcha`. -/
def check_and_handle_challenges (p : PageState) (solveOk : Bool) :
    List ChallengeAction × Bool :=
  if captchaPage p then ([ChallengeAction.solveCaptcha], solveOk)
  else if p.agreeVisible then ([ChallengeAction.clickAgree], true)
  else ([], true)

/-- `handle_age_verification` (lines 422-447): click the "Agree and close"
button whenever it is displayed, unconditionally of any CAPTCHA. -/
def handle_age_verification (p : PageState) : List ChallengeAction :=
  if p.agreeVisible then [ChallengeAction.clickAgree] else []

/-- The challenge-handling sequence of `scrape_profile` (profile_scraper.py
lines 225-233): `handle_age_verification`, then `handle_captcha`, then — if
the page (now `p2`) still shows the CAPTCHA marker — `handle_captcha` again.
The attempted actions, in order. -/
def scrape_profile_challenge_seq (p p2 : PageState) (s1 s2 : Bool) :
    List ChallengeAction :=
  handle_age_verification p ++ (handle_captcha p s1).1 ++
    (if captchaPage p2 then (handle_captcha p2 s2).1 else [])

/-- C6 counterexample: a loaded page whose source carries the CAPTCHA marker
and which shows an "Agree and close" button. In `scrape_profile`'s
challenge-handling sequence (lines 225-233) the first attempted action is the
consent click — `handle_age_verification` runs before `handle_captcha` — so
the consent-wall resolution IS attempted before the CAPTCHA branch,
contradicting the claim for this per-page-load sequence. -/
theorem consent_attempted_before_captcha_in_scrape_profile :
    captchaPage ⟨"You're Almost There - security check", true⟩ = true ∧
    (scrape_profile_challenge_seq ⟨"You're Almost There - security check", true⟩
        ⟨"You're Almost There - security check", true⟩ true true).head? =
      some ChallengeAction.clickAgree := by
  decide

/-- C6 amended: within the Challenge Detector's check functions
(`check_and_handle_challenges` and `handle_captcha`) the CAPTCHA check does
come first: on a page carrying the CAPTCHA marker both take the CAPTCHA
branch alone and never attempt the consent click. (`scrape_profile` itself,
however, invokes `handle_age_verification` before `handle_captcha`, see the
counterexample.) -/
theorem captcha_priority_in_challenge_checks (p : PageState) (solveOk : Bool)
    (h : captchaPage p = true) :
    (check_and_handle_challenges p solveOk).1 = [ChallengeAction.solveCaptcha] ∧
    (handle_captcha p solveOk).1 = [ChallengeAction.solveCaptcha] ∧
    ChallengeAction.clickAgree ∉ (check_and_handle_challenges p solveOk).1 ∧
    ChallengeAction.clickAgree ∉ (handle_captcha p solveOk).1 := by
  unfold check_and_handle_challenges handle_captcha
  rw [if_pos h]
  refine ⟨rfl, rfl, by simp, by simp⟩

/-- C6 amended witness: at the counterexample page both check functions take
only the CAPTCHA branch. -/
theorem captcha_priority_in_challenge_checks_witness :
    captchaPage ⟨"You're Almost There - security check", true⟩ = true ∧
    ((check_and_handle_challenges ⟨"You're Almost There - security check", true⟩
        true).1 = [ChallengeAction.solveCaptcha] ∧
    (handle_captcha ⟨"You're Almost There - security check", true⟩ true).1 =
      [ChallengeAction.solveCaptcha] ∧
    ChallengeAction.clickAgree ∉
      (check_and_handle_challenges ⟨"You're Almost There - security check", true⟩
        true).1 ∧
    ChallengeAction.clickAgree ∉
      (handle_captcha ⟨"You're Almost There - security check", true⟩ true).1) :=
  ⟨by decide,
    captcha_priority_in_challenge_checks
      ⟨"You're Almost There - security check", true⟩ true (by decide)⟩

/-! ### C9: the record always carries its full key schema

Both `scrape_profile` (profile_scraper.py lines 238-254) and
`scrape_profile_with_bright_data` (lines 1298-1314) start from the `data`
dict of `initData` and, along every path — the early HTTP-440 return (lines
264-268), the normal extraction path (name detection at 306-316 and 1328-1335,
field mapping at 1102-1122 and 1370-1392, XPath/social-link backups at
1124-1150 and 1397-1412) and the exception-catching returns (1160-1163) — only
ever assign a contact-field key or the `_error` key. `ScrapeStep` is exactly
that write repertoire, so every value either function can return is
`ScrapeReachable` from the initial dict. -/

/-- One assignment `scrape_profile` or `scrape_profile_with_bright_data`
performs on the `data` dict after initialization. -/
inductive ScrapeStep : DataMap → DataMap → Prop where
  /-- `data[field] = value` for a contact field (name detection, field
  mapping, link backups) -/
  | contactWrite (d : DataMap) (k : String) (v : Option String)
      (hk : k ∈ contactKeys) : ScrapeStep d (setKey d k v)
  /-- `data["_error"] = message` (lines 267, 1321) -/
  | errWrite (d : DataMap) (e : String) :
      ScrapeStep d (setKey d "_error" (some e))

/-- The dict values reachable from `initData url` by the scrapers' writes:
every value returned on any path — early return, full extraction, or
exception-catching return of the partially filled dict — is one of these. -/
def ScrapeReachable (url : String) (d : DataMap) : Prop :=
  Relation.ReflTransGen ScrapeStep (initData url) d

lemma getKey_setKey (d : DataMap) (k k' : String) (v : Option String) :
    getKey (setKey d k v) k' = if k' = k then some v else getKey d k' := by
  induction d with
  | nil =>
    by_cases h : k' = k
    · subst h; simp [setKey, getKey]
    · simp [setKey, getKey, h, Ne.symm h]
  | cons kv rest ih =>
    obtain ⟨k2, v2⟩ := kv
    by_cases h1 : k2 = k
    · subst h1
      by_cases h2 : k' = k2
      · subst h2; simp [setKey, getKey]
      · simp [setKey, getKey, h2, Ne.symm h2]
    · by_cases h2 : k2 = k'
      · subst h2
        simp [setKey, getKey, h1, fun h : k2 = k => h1 h]
      · simp [setKey, getKey, h1, h2, ih]

lemma getKey_initData_url (url : String) :
    getKey (initData url) "url" = some (some url) := by
  simp [initData, getKey]

lemma getKey_mapNone_isSome (keys : List String) (k : String) (hk : k ∈ keys) :
    (getKey (keys.map (fun k2 => (k2, (none : Option String)))) k).isSome = true := by
  induction keys with
  | nil => cases hk
  | cons a rest ih =>
    simp only [List.map_cons, getKey]
    by_cases h : a = k
    · rw [if_pos h]; rfl
    · rw [if_neg h]
      rcases List.mem_cons.mp hk with h1 | h1
      · exact absurd h1.symm h
      · exact ih h1

lemma getKey_initData_contact (url : String) (k : String) (hk : k ∈ contactKeys) :
    (getKey (initData url) k).isSome = true := by
  simp only [initData, getKey]
  by_cases h : "url" = k
  · rw [if_pos h]; rfl
  · rw [if_neg h]; exact getKey_mapNone_isSome contactKeys k hk

lemma scrapeStep_preserves (d d' : DataMap) (step : ScrapeStep d d')
    (hurl : getKey d "url" = some (some url))
    (hall : ∀ k ∈ contactKeys, (getKey d k).isSome = true) :
    getKey d' "url" = some (some url) ∧
      ∀ k ∈ contactKeys, (getKey d' k).isSome = true := by
  cases step with
  | contactWrite kw v hkw =>
    constructor
    · rw [getKey_setKey]
      have hne : "url" ≠ kw := by
        intro h
        subst h
        revert hkw
        decide
      rw [if_neg hne]
      exact hurl
    · intro k hk
      rw [getKey_setKey]
      by_cases hkk : k = kw
      · rw [if_pos hkk]; rfl
      · rw [if_neg hkk]; exact hall k hk
  | errWrite e =>
    constructor
    · rw [getKey_setKey]
      rw [if_neg (by decide : "url" ≠ "_error")]
      exact hurl
    · intro k hk
      rw [getKey_setKey]
      by_cases hkk : k = "_error"
      · rw [if_pos hkk]; rfl
      · rw [if_neg hkk]; exact hall k hk

/-- C9: on every execution path of `scrape_profile` (and of
`scrape_profile_with_bright_data`) — the early rate-limit return, the full
extraction path and the exception-catching return — the returned dict maps
"url" to the input URL and contains all thirteen contact-field keys. -/
theorem record_keeps_url_and_contact_keys (url : String) (d : DataMap)
    (h : ScrapeReachable url d) :
    getKey d "url" = some (some url) ∧
      ∀ k ∈ contactKeys, (getKey d k).isSome = true := by
  induction h with
  | refl => exact ⟨getKey_initData_url url, fun k hk => getKey_initData_contact url k hk⟩
  | tail _ step ih => exact scrapeStep_preserves _ _ step ih.1 ih.2

/-- C9 witness: the dict after the early HTTP-440 return on url "u" — the
initial dict plus the `_error` write — still holds the url and all thirteen
contact keys. -/
theorem record_keeps_url_and_contact_keys_witness :
    getKey (setKey (initData "u") "_error" (some "HTTP ERROR 440 - Rate limited"))
        "url" = some (some "u") ∧
      ∀ k ∈ contactKeys,
        (getKey (setKey (initData "u") "_error"
          (some "HTTP ERROR 440 - Rate limited")) k).isSome = true :=
  record_keeps_url_and_contact_keys "u"
    (setKey (initData "u") "_error" (some "HTTP ERROR 440 - Rate limited"))
    (Relation.ReflTransGen.single
      (ScrapeStep.errWrite (initData "u") "HTTP ERROR 440 - Rate limited"))

/-! ### Pipeline Orchestrator: which URLs get dispatched

`scrape_from_url_file` (profile_scraper.py lines 1450-1623): read the URL
file (stripped non-empty lines), load the ledger, compute the remaining
count, then walk batches indexing into the full URL list, filtering out
ledger-marked URLs, dispatching each batch to `scrape_profile_worker`.
Between batches the ledger is re-read (line 1594) and the batch size may be
halved (floored at 10, line 1575): the model takes the per-batch ledger
contents `scrapedSeq k` and batch size `sizeSeq k` as parameters — the real
loop only ever grows the ledger and keeps the size positive. -/

/-- Reading the URL file (lines 1463-1464): stripped, non-empty lines. -/
def readUrlFile (fileLines : List String) : List String :=
  (fileLines.map strTrim).filter (fun u => u ≠ "")

/-- `remaining_urls` (line 1473): the pending list, the URL-file entries not
in the ledger. -/
def pending_urls (fileLines ledgerLines : List String) : List String :=
  (readUrlFile fileLines).filter
    (fun u => decide (u ∉ load_scraped_urls ledgerLines))

/-- One batch's URL selection (lines 1520-1526): indices
`batchStart..batchStart+cnt-1` into the full URL list, keeping in-range URLs
not in the current ledger set. -/
def batchSelect (allUrls scraped : List String) (batchStart cnt : ℕ) :
    List String :=
  (List.range cnt).filterMap (fun i =>
    match allUrls[batchStart + i]? with
    | some u => if u ∈ scraped then none else some u
    | none => none)

/-- The batch loop (lines 1515-1599): while URLs remain to process, select
and dispatch a batch of `min batchSize remaining`, then advance. `k` counts
batches (indexing the re-read ledger `scrapedSeq` and current size
`sizeSeq`); the guard on a zero batch size mirrors that the code's size is
always positive (it starts at 100 and is floored at 10). Returns every URL
ever dispatched to a worker. -/
def batchLoop (allUrls : List String) (scrapedSeq : ℕ → List String)
    (sizeSeq : ℕ → ℕ) (k batchStart remaining : ℕ) : List String :=
  if h : remaining = 0 ∨ sizeSeq k = 0 then []
  else
    batchSelect allUrls (scrapedSeq k) batchStart (min (sizeSeq k) remaining) ++
      batchLoop allUrls scrapedSeq sizeSeq (k + 1)
        (batchStart + min (sizeSeq k) remaining)
        (remaining - min (sizeSeq k) remaining)
termination_by remaining
decreasing_by
  push_neg at h
  omega

/-- `scrape_from_url_file`'s dispatch (lines 1462-1599): read the URL file,
compute `total_to_process` from the pending count, the limit and the start
index, return early when nothing is to process, else run the batch loop from
the start index. Returns every URL dispatched to a worker. -/
def scrape_from_url_file_dispatched (fileLines ledgerLines : List String)
    (limit : Option ℤ) (startIndex : ℕ) (scrapedSeq : ℕ → List String)
    (sizeSeq : ℕ → ℕ) : List String :=
  if totalToProcess fileLines ledgerLines limit startIndex ≤ 0 then []
  else
    batchLoop (readUrlFile fileLines) scrapedSeq sizeSeq 0 startIndex
      (totalToProcess fileLines ledgerLines limit startIndex).toNat
where
  /-- `total_to_process` (lines 1476-1479). -/
  totalToProcess (fileLines ledgerLines : List String) (limit : Option ℤ)
      (startIndex : ℕ) : ℤ :=
    match limit with
    | some l =>
      if 0 < l then
        min l ((pending_urls fileLines ledgerLines).length - (startIndex : ℤ))
      else (pending_urls fileLines ledgerLines).length - (startIndex : ℤ)
    | none => (pending_urls fileLines ledgerLines).length - (startIndex : ℤ)

lemma mem_batchSelect_not_scraped (allUrls scraped : List String)
    (batchStart cnt : ℕ) (u : String)
    (hu : u ∈ batchSelect allUrls scraped batchStart cnt) : u ∉ scraped := by
  unfold batchSelect at hu
  rw [List.mem_filterMap] at hu
  obtain ⟨i, _, hi⟩ := hu
  cases hg : allUrls[batchStart + i]? with
  | none => rw [hg] at hi; simp at hi
  | some w =>
    rw [hg] at hi
    simp only [] at hi
    split_ifs at hi with hw
    simp only [Option.some.injEq] at hi
    subst hi
    exact hw

lemma not_mem_batchLoop (allUrls : List String) (scrapedSeq : ℕ → List String)
    (sizeSeq : ℕ → ℕ) (url : String) (hin : ∀ k, url ∈ scrapedSeq k) :
    ∀ remaining k batchStart,
      url ∉ batchLoop allUrls scrapedSeq sizeSeq k batchStart remaining := by
  intro remaining
  induction remaining using Nat.strong_induction_on with
  | _ remaining ih =>
    intro k batchStart
    rw [batchLoop]
    split
    · exact List.not_mem_nil url
    next h =>
      rw [List.mem_append]
      push_neg at h
      rintro (hmem | hmem)
      · exact mem_batchSelect_not_scraped _ _ _ _ url hmem (hin k)
      · exact ih (remaining - min (sizeSeq k) remaining) (by omega) _ _ hmem

/-- C2: a second orchestrator run dispatches no ledger-marked URL. For every
URL in the persisted scraped_urls ledger: it is excluded from the pending
list (`remaining_urls`), it is never dispatched by the batch loop (whose
per-batch re-reads of the append-only ledger still contain it, hypothesis
`hgrow`), and the per-worker skip-if-done check returns immediately without
touching any state. -/
theorem second_run_processes_no_marked_url (fileLines ledgerLines : List String)
    (limit : Option ℤ) (startIndex : ℕ) (scrapedSeq : ℕ → List String)
    (sizeSeq : ℕ → ℕ) (url : String)
    (hmem : url ∈ load_scraped_urls ledgerLines)
    (hgrow : ∀ k, load_scraped_urls ledgerLines ⊆ scrapedSeq k) :
    url ∉ pending_urls fileLines ledgerLines ∧
    url ∉ scrape_from_url_file_dispatched fileLines ledgerLines limit
      startIndex scrapedSeq sizeSeq ∧
    ∀ (st : WorkerState) (rec : DataMap),
      url ∈ load_scraped_urls st.ledgerLines →
        scrape_profile_worker st url rec = (st, none) := by
  refine ⟨?_, ?_, ?_⟩
  · intro hpend
    unfold pending_urls at hpend
    rw [List.mem_filter] at hpend
    exact absurd hmem (by simpa using hpend.2)
  · unfold scrape_from_url_file_dispatched
    split
    · exact List.not_mem_nil url
    · exact not_mem_batchLoop (readUrlFile fileLines) scrapedSeq sizeSeq url
        (fun k => hgrow k hmem) _ 0 startIndex
  · intro st rec hdone
    unfold scrape_profile_worker
    rw [if_pos hdone]

/-- C2 witness: ledger holding "a", URL file ["a", "b"]: "a" is not pending,
not dispatched (with the re-read ledger constantly ["a"] and batch size 100),
and the worker skip check returns the state unchanged. -/
theorem second_run_processes_no_marked_url_witness :
    "a" ∈ load_scraped_urls ["a"] ∧
    ("a" ∉ pending_urls ["a", "b"] ["a"] ∧
    "a" ∉ scrape_from_url_file_dispatched ["a", "b"] ["a"] none 0
      (fun _ => ["a"]) (fun _ => 100) ∧
    ∀ (st : WorkerState) (rec : DataMap),
      "a" ∈ load_scraped_urls st.ledgerLines →
        scrape_profile_worker st "a" rec = (st, none)) :=
  ⟨by decide,
    second_run_processes_no_marked_url ["a", "b"] ["a"] none 0
      (fun _ => ["a"]) (fun _ => 100) "a" (by decide)
      (fun _ u hu => hu)⟩

/-! ### Pagination Walker persistence: save_urls

profile_finder.py: `load_saved_urls` (761-763) and `save_urls` (765-774).
The URL file is a list of lines; loading yields the set of stripped lines,
saving writes the sorted union of the existing set and the new URLs, one per
line. -/

/-- `load_saved_urls`: the set of stripped lines of profile_urls.txt. -/
def load_saved_urls (lines : List String) : Finset String :=
  (lines.map strTrim).toFinset

/-- `save_urls`: union the new URLs with the already-saved set and rewrite
the file with the combined URLs in sorted order, one per line. -/
def save_urls (urls : List String) (lines : List String) : List String :=
  (load_saved_urls lines ∪ urls.toFinset).sort (· ≤ ·)

/-- C10: `save_urls` is monotone and normalizing. The file it writes holds
exactly the union of the previously saved URL set and the new URLs — no URL
is ever removed — with each URL exactly once, in sorted order; and saving a
subset of already-saved URLs leaves the file's URL set unchanged. -/
theorem save_urls_union_nodup_sorted (urls lines : List String) :
    (save_urls urls lines).toFinset = load_saved_urls lines ∪ urls.toFinset ∧
    (save_urls urls lines).Nodup ∧
    List.Sorted (· ≤ ·) (save_urls urls lines) ∧
    load_saved_urls lines ⊆ (save_urls urls lines).toFinset ∧
    (urls.toFinset ⊆ load_saved_urls lines →
      (save_urls urls lines).toFinset = load_saved_urls lines) := by
  have hset : (save_urls urls lines).toFinset =
      load_saved_urls lines ∪ urls.toFinset := by
    unfold save_urls
    exact Finset.sort_toFinset _ _
  refine ⟨hset, Finset.sort_nodup _ _, Finset.sort_sorted _ _, ?_, ?_⟩
  · rw [hset]
    exact Finset.subset_union_left
  · intro hsub
    rw [hset]
    exact Finset.union_eq_left.mpr hsub

/-- C10 witness: saving ["b", "a"] over a file holding "b" and "c" writes
exactly ["a", "b", "c"]; re-saving the subset ["c"] keeps the set
unchanged. -/
theorem save_urls_union_nodup_sorted_witness :
    ((save_urls ["b", "a"] ["b", "c"]).toFinset =
        load_saved_urls ["b", "c"] ∪ (["b", "a"] : List String).toFinset ∧
      (save_urls ["b", "a"] ["b", "c"]).Nodup ∧
      List.Sorted (· ≤ ·) (save_urls ["b", "a"] ["b", "c"]) ∧
      load_saved_urls ["b", "c"] ⊆ (save_urls ["b", "a"] ["b", "c"]).toFinset ∧
      ((["b", "a"] : List String).toFinset ⊆ load_saved_urls ["b", "c"] →
        (save_urls ["b", "a"] ["b", "c"]).toFinset = load_saved_urls ["b", "c"])) :=
  save_urls_union_nodup_sorted ["b", "a"] ["b", "c"]
